import Mathlib

/-!
Verification of the `AddOperation` arithmetization component
(`core/src/operations/add.rs`): the witness populator `populate` and the
constraint evaluator `eval` for unsigned 32-bit addition inside a
zero-knowledge VM.

The Rust code is generic over a prime field `F : Field`; we shallowly embed
the scalar type as `ℚ` (a `Field` instance in which the embedding of the
integers appearing in these constraints, all of magnitude below 2^32, is
injective, as it is in the deployed prime field).  `u32` values are embedded
as natural numbers together with explicit `% 2 ^ 32` wraparound, and `u8`
bytes as naturals with `% 256`.

The builder (`CurtaAirBuilder`) is external to this file; we embed `eval`'s
observable effect on it: the ordered list of asserted constraint
polynomials, evaluated at a scalar assignment (with the `builder.when
(is_real)` scope represented by multiplying each assertion emitted inside it
by `is_real`), and the ordered list of `send_byte_pair` lookup requests.
Likewise `Segment` is external; we embed it as the ordered record of
`add_byte_range_checks` registrations it receives.
-/

/-- `Word<T>`: a 4-limb little-endian decomposition of a 32-bit value
(`pub struct Word<T>(pub [T; 4])`), with the four limbs spelled out. -/
structure Word (α : Type) where
  w0 : α
  w1 : α
  w2 : α
  w3 : α
  deriving DecidableEq, Repr

/-- `AddOperation<T>`: the result `value: Word<T>` plus `carry: [T; 3]`. -/
structure AddOperation (α : Type) where
  value : Word α
  carry0 : α
  carry1 : α
  carry2 : α
  deriving DecidableEq, Repr

/-- Byte `i` of the little-endian decomposition of a `u32`
(`u32::to_le_bytes`). -/
def u32ByteLE (n i : ℕ) : ℕ := n / 256 ^ i % 256

/-- `Word::from(expected)`: the little-endian 4-byte decomposition of a
`u32`, each byte embedded into the field. -/
def Word.fromU32 (n : ℕ) : Word ℚ :=
  ⟨(u32ByteLE n 0 : ℚ), (u32ByteLE n 1 : ℚ), (u32ByteLE n 2 : ℚ), (u32ByteLE n 3 : ℚ)⟩

/-- Decoding a `Word ℚ` back to the (field image of the) 32-bit value it
represents: `w0 + 2^8 w1 + 2^16 w2 + 2^24 w3`. -/
def Word.toFieldU32 (w : Word ℚ) : ℚ :=
  w.w0 + 256 * w.w1 + 65536 * w.w2 + 16777216 * w.w3

/-- `Default`-initialized `AddOperation` (every field element zero). -/
def AddOperation.default : AddOperation ℚ := ⟨⟨0, 0, 0, 0⟩, 0, 0, 0⟩

/-- The local `carry[0]` byte computed by `populate`:
`1` if `a[0] + b[0] > 255` else `0`. -/
def populateCarry0 (a b : ℕ) : ℕ :=
  if u32ByteLE a 0 + u32ByteLE b 0 > 255 then 1 else 0

/-- The local `carry[1]` byte computed by `populate`:
`1` if `a[1] + b[1] + carry[0] > 255` else `0`. -/
def populateCarry1 (a b : ℕ) : ℕ :=
  if u32ByteLE a 1 + u32ByteLE b 1 + populateCarry0 a b > 255 then 1 else 0

/-- The local `carry[2]` byte computed by `populate`:
`1` if `a[2] + b[2] + carry[1] > 255` else `0`. -/
def populateCarry2 (a b : ℕ) : ℕ :=
  if u32ByteLE a 2 + u32ByteLE b 2 + populateCarry1 a b > 255 then 1 else 0

/-- The carry out of limb `i` of the 32-bit addition `a + b`: whether the
low `i+1` limbs of `a` and of `b` sum to at least `256^(i+1)`. -/
def carryOut (a b : ℕ) (i : ℕ) : ℕ :=
  (a % 256 ^ (i + 1) + b % 256 ^ (i + 1)) / 256 ^ (i + 1)

/-- `Segment`, seen through the only interface `populate` uses: the ordered
record of `add_byte_range_checks(b1, b2)` calls it has received. -/
abbrev Segment : Type := List (ℕ × ℕ)

/-- `Segment::add_byte_range_checks(b1, b2)`: registers one byte pair for
range-checking. -/
def Segment.addByteRangeChecks (s : Segment) (b1 b2 : ℕ) : Segment :=
  s ++ [(b1, b2)]

/-- `AddOperation::populate(&mut self, segment, a_u32, b_u32)`.  Returns the
updated columns, the updated segment, and the returned `expected` value.
The loop over the 12 bytes (step 2) is unrolled into its six iterations.
Note the carry writes mirror the source exactly: `self.carry[i]` is set to
one inside the `if`, and left untouched otherwise. -/
def AddOperation.populate (self : AddOperation ℚ) (segment : Segment)
    (a_u32 b_u32 : ℕ) : AddOperation ℚ × Segment × ℕ :=
  let expected := (a_u32 + b_u32) % 2 ^ 32
  let value := Word.fromU32 expected
  let a0 := u32ByteLE a_u32 0
  let a1 := u32ByteLE a_u32 1
  let a2 := u32ByteLE a_u32 2
  let a3 := u32ByteLE a_u32 3
  let b0 := u32ByteLE b_u32 0
  let b1 := u32ByteLE b_u32 1
  let b2 := u32ByteLE b_u32 2
  let b3 := u32ByteLE b_u32 3
  let selfCarry0 : ℚ :=
    if a0 + b0 > 255 then 1 else self.carry0
  let selfCarry1 : ℚ :=
    if a1 + b1 + populateCarry0 a_u32 b_u32 > 255 then 1 else self.carry1
  let selfCarry2 : ℚ :=
    if a2 + b2 + populateCarry1 a_u32 b_u32 > 255 then 1 else self.carry2
  let e0 := u32ByteLE expected 0
  let e1 := u32ByteLE expected 1
  let e2 := u32ByteLE expected 2
  let e3 := u32ByteLE expected 3
  let segment1 := segment.addByteRangeChecks a0 a1
  let segment2 := segment1.addByteRangeChecks a2 a3
  let segment3 := segment2.addByteRangeChecks b0 b1
  let segment4 := segment3.addByteRangeChecks b2 b3
  let segment5 := segment4.addByteRangeChecks e0 e1
  let segment6 := segment5.addByteRangeChecks e2 e3
  (⟨value, selfCarry0, selfCarry1, selfCarry2⟩, segment6, expected)

/-- The `overflow` value of `populate`'s `debug_assert_eq!`:
`a[0].wrapping_add(b[0]).wrapping_sub(expected.to_le_bytes()[0])` computed
in wrapping `u8` arithmetic, then cast to `u32`. -/
def populateOverflow (a_u32 b_u32 : ℕ) : ℕ :=
  ((u32ByteLE a_u32 0 + u32ByteLE b_u32 0) % 256
    + 256 - u32ByteLE ((a_u32 + b_u32) % 2 ^ 32) 0) % 256

/-- The checked expression of `populate`'s `debug_assert_eq!`:
`overflow.wrapping_mul(overflow.wrapping_sub(base))` in `u32` arithmetic,
with `base = 256`. -/
def populateDebugCheck (a_u32 b_u32 : ℕ) : ℕ :=
  populateOverflow a_u32 b_u32
    * ((populateOverflow a_u32 b_u32 + 2 ^ 32 - 256) % 2 ^ 32) % 2 ^ 32

/-- The constraints emitted through `builder.when(is_real)` in
`AddOperation::eval`, before the `when`-scope multiplies them by `is_real`,
in emission order: the four `overflow_i * (overflow_i - base)` identities,
the three carry-implies-overflow identities, the three
no-carry-implies-no-overflow identities, and the four booleanness
identities (`assert_bool(x)` asserts `x * (x - 1)`). -/
def guardedConstraints (a b : Word ℚ) (cols : AddOperation ℚ)
    (is_real : ℚ) : List ℚ :=
  let one : ℚ := 1
  let base : ℚ := 256
  let overflow_0 := a.w0 + b.w0 - cols.value.w0
  let overflow_1 := a.w1 + b.w1 - cols.value.w1 + cols.carry0
  let overflow_2 := a.w2 + b.w2 - cols.value.w2 + cols.carry1
  let overflow_3 := a.w3 + b.w3 - cols.value.w3 + cols.carry2
  [overflow_0 * (overflow_0 - base),
   overflow_1 * (overflow_1 - base),
   overflow_2 * (overflow_2 - base),
   overflow_3 * (overflow_3 - base),
   cols.carry0 * (overflow_0 - base),
   cols.carry1 * (overflow_1 - base),
   cols.carry2 * (overflow_2 - base),
   (cols.carry0 - one) * overflow_0,
   (cols.carry1 - one) * overflow_1,
   (cols.carry2 - one) * overflow_2,
   cols.carry0 * (cols.carry0 - one),
   cols.carry1 * (cols.carry1 - one),
   cols.carry2 * (cols.carry2 - one),
   is_real * (is_real - one)]

/-- The final, ungated degree-3 constraint of `eval`:
`a[0] * b[0] * cols.value[0] - a[0] * b[0] * cols.value[0]`. -/
def fillerConstraint (a b : Word ℚ) (cols : AddOperation ℚ) : ℚ :=
  a.w0 * b.w0 * cols.value.w0 - a.w0 * b.w0 * cols.value.w0

/-- Every zero-assertion emitted by `AddOperation::eval`, in order: the
`builder.when(is_real)`-scoped assertions, each multiplied by `is_real`,
followed by the one assertion made directly on `builder`. -/
def evalConstraints (a b : Word ℚ) (cols : AddOperation ℚ)
    (is_real : ℚ) : List ℚ :=
  (guardedConstraints a b cols is_real).map (fun e => is_real * e)
    ++ [fillerConstraint a b cols]

/-- `ByteOpcode`, restricted to the one variant this component uses. -/
inductive ByteOpcode where
  | Range : ByteOpcode
  deriving DecidableEq, Repr

/-- One `builder.send_byte_pair(opcode, a1, a2, b, c, multiplicity)` lookup
request. -/
structure ByteLookupSend where
  opcode : ByteOpcode
  a1 : ℚ
  a2 : ℚ
  b : ℚ
  c : ℚ
  mult : ℚ
  deriving DecidableEq, Repr

/-- The `send_byte_pair` requests emitted by `AddOperation::eval`, in order:
the 12 limbs of `a`, `b`, `cols.value` chained and paired two at a time
(loop unrolled), each tagged `ByteOpcode::Range` with two zero slots and
multiplicity `is_real`. -/
def evalByteSends (a b : Word ℚ) (cols : AddOperation ℚ)
    (is_real : ℚ) : List ByteLookupSend :=
  [⟨ByteOpcode.Range, 0, 0, a.w0, a.w1, is_real⟩,
   ⟨ByteOpcode.Range, 0, 0, a.w2, a.w3, is_real⟩,
   ⟨ByteOpcode.Range, 0, 0, b.w0, b.w1, is_real⟩,
   ⟨ByteOpcode.Range, 0, 0, b.w2, b.w3, is_real⟩,
   ⟨ByteOpcode.Range, 0, 0, cols.value.w0, cols.value.w1, is_real⟩,
   ⟨ByteOpcode.Range, 0, 0, cols.value.w2, cols.value.w3, is_real⟩]

/-! ### Supporting lemmas on the byte decomposition -/

lemma u32ByteLE_le (n i : ℕ) : u32ByteLE n i ≤ 255 := by
  have h := Nat.mod_lt (n / 256 ^ i) (show 0 < 256 by norm_num)
  unfold u32ByteLE
  omega

lemma u32_decomp (n : ℕ) (h : n < 2 ^ 32) :
    n = u32ByteLE n 0 + 256 * u32ByteLE n 1 + 65536 * u32ByteLE n 2
      + 16777216 * u32ByteLE n 3 := by
  simp only [u32ByteLE, pow_zero, pow_one, Nat.div_one]
  norm_num
  omega

lemma populateCarry0_le (a b : ℕ) : populateCarry0 a b ≤ 1 := by
  unfold populateCarry0
  split <;> norm_num

lemma populateCarry1_le (a b : ℕ) : populateCarry1 a b ≤ 1 := by
  unfold populateCarry1
  split <;> norm_num

lemma populateCarry2_le (a b : ℕ) : populateCarry2 a b ≤ 1 := by
  unfold populateCarry2
  split <;> norm_num

/-- Schoolbook correctness of `populate`'s carry cascade: limb by limb,
`a[i] + b[i] + carry[i-1] = expected[i] + 256 * carry[i]`, the top limb's
outgoing carry being discarded. -/
lemma populate_carry_recurrence (a b : ℕ) (ha : a < 2 ^ 32) (hb : b < 2 ^ 32) :
    u32ByteLE a 0 + u32ByteLE b 0
      = u32ByteLE ((a + b) % 2 ^ 32) 0 + 256 * populateCarry0 a b
    ∧ u32ByteLE a 1 + u32ByteLE b 1 + populateCarry0 a b
      = u32ByteLE ((a + b) % 2 ^ 32) 1 + 256 * populateCarry1 a b
    ∧ u32ByteLE a 2 + u32ByteLE b 2 + populateCarry1 a b
      = u32ByteLE ((a + b) % 2 ^ 32) 2 + 256 * populateCarry2 a b
    ∧ (u32ByteLE a 3 + u32ByteLE b 3 + populateCarry2 a b
        = u32ByteLE ((a + b) % 2 ^ 32) 3
      ∨ u32ByteLE a 3 + u32ByteLE b 3 + populateCarry2 a b
        = u32ByteLE ((a + b) % 2 ^ 32) 3 + 256) := by
  have hda := u32_decomp a ha
  have hdb := u32_decomp b hb
  have hde := u32_decomp ((a + b) % 2 ^ 32) (Nat.mod_lt _ (by norm_num))
  have ha0 := u32ByteLE_le a 0
  have ha1 := u32ByteLE_le a 1
  have ha2 := u32ByteLE_le a 2
  have ha3 := u32ByteLE_le a 3
  have hb0 := u32ByteLE_le b 0
  have hb1 := u32ByteLE_le b 1
  have hb2 := u32ByteLE_le b 2
  have hb3 := u32ByteLE_le b 3
  have he0 := u32ByteLE_le ((a + b) % 2 ^ 32) 0
  have he1 := u32ByteLE_le ((a + b) % 2 ^ 32) 1
  have he2 := u32ByteLE_le ((a + b) % 2 ^ 32) 2
  have he3 := u32ByteLE_le ((a + b) % 2 ^ 32) 3
  have hmod : (a + b) % 2 ^ 32 = a + b ∨ (a + b) % 2 ^ 32 + 2 ^ 32 = a + b := by
    omega
  unfold populateCarry2 populateCarry1 populateCarry0
  split <;> split <;> split <;> omega


/-- `populate`'s cascaded `carry[0]` agrees with the true carry out of
limb 0 of the 32-bit addition. -/
lemma populateCarry0_eq_carryOut (a b : ℕ) :
    populateCarry0 a b = carryOut a b 0 := by
  unfold populateCarry0 carryOut u32ByteLE
  norm_num
  split <;> omega

/-- `populate`'s cascaded `carry[1]` agrees with the true carry out of
limb 1 of the 32-bit addition. -/
lemma populateCarry1_eq_carryOut (a b : ℕ) :
    populateCarry1 a b = carryOut a b 1 := by
  unfold populateCarry1 carryOut u32ByteLE
  rw [populateCarry0_eq_carryOut]
  unfold carryOut
  norm_num
  split <;> omega

/-- `populate`'s cascaded `carry[2]` agrees with the true carry out of
limb 2 of the 32-bit addition. -/
lemma populateCarry2_eq_carryOut (a b : ℕ) :
    populateCarry2 a b = carryOut a b 2 := by
  unfold populateCarry2 carryOut u32ByteLE
  rw [populateCarry1_eq_carryOut]
  unfold carryOut
  norm_num
  split <;> omega

/-- Recomposing four bytes and decomposing again gives back the bytes. -/
lemma u32ByteLE_recomp (a0 a1 a2 a3 : ℕ) (h0 : a0 ≤ 255) (h1 : a1 ≤ 255)
    (h2 : a2 ≤ 255) (h3 : a3 ≤ 255) :
    u32ByteLE (a0 + 256 * a1 + 65536 * a2 + 16777216 * a3) 0 = a0
    ∧ u32ByteLE (a0 + 256 * a1 + 65536 * a2 + 16777216 * a3) 1 = a1
    ∧ u32ByteLE (a0 + 256 * a1 + 65536 * a2 + 16777216 * a3) 2 = a2
    ∧ u32ByteLE (a0 + 256 * a1 + 65536 * a2 + 16777216 * a3) 3 = a3 := by
  unfold u32ByteLE
  norm_num
  omega

/-- A field element satisfying the booleanness identity is zero or one. -/
lemma eq_zero_or_one_of_mul_sub (c : ℚ) (h : c * (c - 1) = 0) :
    c = 0 ∨ c = 1 := by
  rcases mul_eq_zero.mp h with h | h
  · exact Or.inl h
  · exact Or.inr (by linarith)

/-- A natural number at most one casts to the field element zero or one. -/
lemma natCast_zero_or_one (n : ℕ) (h : n ≤ 1) : (n : ℚ) = 0 ∨ (n : ℚ) = 1 := by
  interval_cases n <;> simp

/-- Soundness core: if every constraint emitted by `eval` at activation `1`
vanishes, the carries are boolean and the limb-wise overflow equations
hold. -/
lemma evalConstraints_imply (a b : Word ℚ) (cols : AddOperation ℚ)
    (hall : ∀ e ∈ evalConstraints a b cols 1, e = 0) :
    (cols.carry0 = 0 ∨ cols.carry0 = 1)
    ∧ (cols.carry1 = 0 ∨ cols.carry1 = 1)
    ∧ (cols.carry2 = 0 ∨ cols.carry2 = 1)
    ∧ a.w0 + b.w0 - cols.value.w0 = 256 * cols.carry0
    ∧ a.w1 + b.w1 - cols.value.w1 + cols.carry0 = 256 * cols.carry1
    ∧ a.w2 + b.w2 - cols.value.w2 + cols.carry1 = 256 * cols.carry2
    ∧ (a.w3 + b.w3 - cols.value.w3 + cols.carry2 = 0
       ∨ a.w3 + b.w3 - cols.value.w3 + cols.carry2 = 256) := by
  simp only [evalConstraints, guardedConstraints, fillerConstraint,
    List.map_cons, List.map_nil, List.forall_mem_append, List.forall_mem_cons,
    List.forall_mem_nil, and_true, one_mul] at hall
  obtain ⟨⟨h1, h2, h3, h4, h5, h6, h7, h8, h9, h10, h11, h12, h13, h14⟩, -⟩ := hall
  have hc0 := eq_zero_or_one_of_mul_sub _ h11
  have hc1 := eq_zero_or_one_of_mul_sub _ h12
  have hc2 := eq_zero_or_one_of_mul_sub _ h13
  refine ⟨hc0, hc1, hc2, ?_, ?_, ?_, ?_⟩
  · rcases hc0 with h | h
    · rcases mul_eq_zero.mp h8 with h' | h' <;> linarith
    · rcases mul_eq_zero.mp h5 with h' | h' <;> linarith
  · rcases hc1 with h | h
    · rcases mul_eq_zero.mp h9 with h' | h' <;> linarith
    · rcases mul_eq_zero.mp h6 with h' | h' <;> linarith
  · rcases hc2 with h | h
    · rcases mul_eq_zero.mp h10 with h' | h' <;> linarith
    · rcases mul_eq_zero.mp h7 with h' | h' <;> linarith
  · rcases mul_eq_zero.mp h4 with h' | h'
    · exact Or.inl h'
    · exact Or.inr (by linarith)

/-- Completeness core: boolean carries satisfying the limb-wise overflow
equations make every constraint emitted by `eval` at activation `1`
vanish. -/
lemma evalConstraints_zero_of (a b : Word ℚ) (cols : AddOperation ℚ)
    (hb0 : cols.carry0 = 0 ∨ cols.carry0 = 1)
    (hb1 : cols.carry1 = 0 ∨ cols.carry1 = 1)
    (hb2 : cols.carry2 = 0 ∨ cols.carry2 = 1)
    (h0 : a.w0 + b.w0 - cols.value.w0 = 256 * cols.carry0)
    (h1 : a.w1 + b.w1 - cols.value.w1 + cols.carry0 = 256 * cols.carry1)
    (h2 : a.w2 + b.w2 - cols.value.w2 + cols.carry1 = 256 * cols.carry2)
    (h3 : a.w3 + b.w3 - cols.value.w3 + cols.carry2 = 0
          ∨ a.w3 + b.w3 - cols.value.w3 + cols.carry2 = 256) :
    ∀ e ∈ evalConstraints a b cols 1, e = 0 := by
  have q0 : cols.carry0 * (cols.carry0 - 1) = 0 := by
    rcases hb0 with h | h <;> rw [h] <;> ring
  have q1 : cols.carry1 * (cols.carry1 - 1) = 0 := by
    rcases hb1 with h | h <;> rw [h] <;> ring
  have q2 : cols.carry2 * (cols.carry2 - 1) = 0 := by
    rcases hb2 with h | h <;> rw [h] <;> ring
  simp only [evalConstraints, guardedConstraints, fillerConstraint,
    List.map_cons, List.map_nil, List.forall_mem_append, List.forall_mem_cons,
    List.forall_mem_nil, and_true, one_mul]
  refine ⟨⟨?_, ?_, ?_, ?_, ?_, ?_, ?_, ?_, ?_, ?_, q0, q1, q2, by norm_num⟩,
    by simp⟩
  · linear_combination (a.w0 + b.w0 - cols.value.w0 + 256 * cols.carry0 - 256) * h0
      + 65536 * q0
  · linear_combination (a.w1 + b.w1 - cols.value.w1 + cols.carry0
      + 256 * cols.carry1 - 256) * h1 + 65536 * q1
  · linear_combination (a.w2 + b.w2 - cols.value.w2 + cols.carry1
      + 256 * cols.carry2 - 256) * h2 + 65536 * q2
  · rcases h3 with h | h
    · linear_combination (a.w3 + b.w3 - cols.value.w3 + cols.carry2 - 256) * h
    · linear_combination (a.w3 + b.w3 - cols.value.w3 + cols.carry2) * h
  · linear_combination cols.carry0 * h0 + 256 * q0
  · linear_combination cols.carry1 * h1 + 256 * q1
  · linear_combination cols.carry2 * h2 + 256 * q2
  · linear_combination (cols.carry0 - 1) * h0 + 256 * q0
  · linear_combination (cols.carry1 - 1) * h1 + 256 * q1
  · linear_combination (cols.carry2 - 1) * h2 + 256 * q2

/-- On a default-initialized `AddOperation`, `populate` writes the wrapped
sum's decomposition and exactly the cascaded carry indicators. -/
lemma populate_default_eq (segment : Segment) (a b : ℕ) :
    (AddOperation.default.populate segment a b).1
      = ⟨Word.fromU32 ((a + b) % 2 ^ 32), (populateCarry0 a b : ℚ),
         (populateCarry1 a b : ℚ), (populateCarry2 a b : ℚ)⟩ := by
  unfold AddOperation.populate AddOperation.default
  unfold populateCarry2 populateCarry1 populateCarry0
  split_ifs <;> simp_all

/-- The limb recurrence, embedded into the field: each limb-wise overflow
of the `populate` witness equals `256` times the cascaded carry. -/
lemma populate_overflow_field (a b : ℕ) (ha : a < 2 ^ 32) (hb : b < 2 ^ 32) :
    (u32ByteLE a 0 : ℚ) + u32ByteLE b 0 - u32ByteLE ((a + b) % 2 ^ 32) 0
      = 256 * populateCarry0 a b
    ∧ (u32ByteLE a 1 : ℚ) + u32ByteLE b 1 - u32ByteLE ((a + b) % 2 ^ 32) 1
      + populateCarry0 a b = 256 * populateCarry1 a b
    ∧ (u32ByteLE a 2 : ℚ) + u32ByteLE b 2 - u32ByteLE ((a + b) % 2 ^ 32) 2
      + populateCarry1 a b = 256 * populateCarry2 a b
    ∧ ((u32ByteLE a 3 : ℚ) + u32ByteLE b 3 - u32ByteLE ((a + b) % 2 ^ 32) 3
        + populateCarry2 a b = 0
      ∨ (u32ByteLE a 3 : ℚ) + u32ByteLE b 3 - u32ByteLE ((a + b) % 2 ^ 32) 3
        + populateCarry2 a b = 256) := by
  obtain ⟨r0, r1, r2, r3⟩ := populate_carry_recurrence a b ha hb
  refine ⟨?_, ?_, ?_, ?_⟩
  · have h : (u32ByteLE a 0 : ℚ) + u32ByteLE b 0
        = u32ByteLE ((a + b) % 2 ^ 32) 0 + 256 * populateCarry0 a b := by
      exact_mod_cast r0
    linarith
  · have h : (u32ByteLE a 1 : ℚ) + u32ByteLE b 1 + populateCarry0 a b
        = u32ByteLE ((a + b) % 2 ^ 32) 1 + 256 * populateCarry1 a b := by
      exact_mod_cast r1
    linarith
  · have h : (u32ByteLE a 2 : ℚ) + u32ByteLE b 2 + populateCarry1 a b
        = u32ByteLE ((a + b) % 2 ^ 32) 2 + 256 * populateCarry2 a b := by
      exact_mod_cast r2
    linarith
  · rcases r3 with r | r
    · left
      have h : (u32ByteLE a 3 : ℚ) + u32ByteLE b 3 + populateCarry2 a b
          = u32ByteLE ((a + b) % 2 ^ 32) 3 := by
        exact_mod_cast r
      linarith
    · right
      have h : (u32ByteLE a 3 : ℚ) + u32ByteLE b 3 + populateCarry2 a b
          = u32ByteLE ((a + b) % 2 ^ 32) 3 + 256 := by
        exact_mod_cast r
      linarith

/-- C3: for all 32-bit unsigned integers `a`, `b`, `populate` returns
`(a + b) mod 2^32` (native wraparound, never an error), writes that value's
little-endian decomposition into `value`, and the produced `Word` decodes
back to exactly that 32-bit value. -/
theorem add_populate_roundtrip (self : AddOperation ℚ) (segment : Segment)
    (a b : ℕ) (ha : a < 2 ^ 32) (hb : b < 2 ^ 32) :
    (self.populate segment a b).2.2 = (a + b) % 2 ^ 32
    ∧ (self.populate segment a b).1.value = Word.fromU32 ((a + b) % 2 ^ 32)
    ∧ Word.toFieldU32 (self.populate segment a b).1.value
      = (((a + b) % 2 ^ 32 : ℕ) : ℚ) := by
  refine ⟨rfl, rfl, ?_⟩
  have h := u32_decomp ((a + b) % 2 ^ 32) (Nat.mod_lt _ (by norm_num))
  show (u32ByteLE ((a + b) % 2 ^ 32) 0 : ℚ) + 256 * u32ByteLE ((a + b) % 2 ^ 32) 1
      + 65536 * u32ByteLE ((a + b) % 2 ^ 32) 2
      + 16777216 * u32ByteLE ((a + b) % 2 ^ 32) 3 = ((a + b) % 2 ^ 32 : ℕ)
  exact_mod_cast h.symm

/-- C3 witness at `a = 4294967290`, `b = 17` (wrapping sum `11`). -/
theorem add_populate_roundtrip_witness :
    4294967290 < 2 ^ 32 ∧ 17 < 2 ^ 32
    ∧ ((AddOperation.default.populate [] 4294967290 17).2.2
        = (4294967290 + 17) % 2 ^ 32
      ∧ (AddOperation.default.populate [] 4294967290 17).1.value
        = Word.fromU32 ((4294967290 + 17) % 2 ^ 32)
      ∧ Word.toFieldU32 (AddOperation.default.populate [] 4294967290 17).1.value
        = (((4294967290 + 17) % 2 ^ 32 : ℕ) : ℚ)) :=
  ⟨by norm_num, by norm_num,
   add_populate_roundtrip AddOperation.default [] 4294967290 17
     (by norm_num) (by norm_num)⟩

/-- C4: on a fresh `AddOperation`, `populate` sets `carry[0] = 1` iff
`a[0] + b[0] > 255`, `carry[1] = 1` iff `a[1] + b[1] + carry[0] > 255`,
`carry[2] = 1` iff `a[2] + b[2] + carry[1] > 255`, and `0` otherwise; only
three carries exist, the top limb's overflow being discarded (`value` is
the wrapped sum).  In particular `a = 4294967295`, `b = 1` yields sum `0`
with carries `[1, 1, 1]`. -/
theorem add_populate_carries (segment : Segment) (a b : ℕ)
    (ha : a < 2 ^ 32) (hb : b < 2 ^ 32) :
    ((AddOperation.default.populate segment a b).1.carry0
        = if u32ByteLE a 0 + u32ByteLE b 0 > 255 then (1 : ℚ) else 0)
    ∧ ((AddOperation.default.populate segment a b).1.carry1
        = if u32ByteLE a 1 + u32ByteLE b 1 + populateCarry0 a b > 255
          then (1 : ℚ) else 0)
    ∧ ((AddOperation.default.populate segment a b).1.carry2
        = if u32ByteLE a 2 + u32ByteLE b 2 + populateCarry1 a b > 255
          then (1 : ℚ) else 0)
    ∧ ((AddOperation.default.populate segment 4294967295 1).1.value
          = Word.fromU32 0
      ∧ (AddOperation.default.populate segment 4294967295 1).1.carry0 = 1
      ∧ (AddOperation.default.populate segment 4294967295 1).1.carry1 = 1
      ∧ (AddOperation.default.populate segment 4294967295 1).1.carry2 = 1) := by
  rw [populate_default_eq, populate_default_eq]
  refine ⟨?_, ?_, ?_, ?_, ?_, ?_, ?_⟩
  · unfold populateCarry0
    split <;> norm_num
  · unfold populateCarry1
    split <;> norm_num
  · unfold populateCarry2
    split <;> norm_num
  · norm_num
  · norm_num [populateCarry0, u32ByteLE]
  · norm_num [populateCarry1, populateCarry0, u32ByteLE]
  · norm_num [populateCarry2, populateCarry1, populateCarry0, u32ByteLE]

/-- C4 witness at `a = 100`, `b = 200` (low-limb carry only). -/
theorem add_populate_carries_witness :
    100 < 2 ^ 32 ∧ 200 < 2 ^ 32
    ∧ ((AddOperation.default.populate [] 100 200).1.carry0
        = if u32ByteLE 100 0 + u32ByteLE 200 0 > 255 then (1 : ℚ) else 0) :=
  ⟨by norm_num, by norm_num,
   (add_populate_carries [] 100 200 (by norm_num) (by norm_num)).1⟩

/-- C5: with the activation flag `0`, every assertion emitted by `eval`
evaluates to zero, for arbitrary operand and column values (including
values violating the addition identities). -/
theorem add_eval_inactive_neutral (a b : Word ℚ) (cols : AddOperation ℚ) :
    ∀ e ∈ evalConstraints a b cols 0, e = 0 := by
  simp [evalConstraints, guardedConstraints, fillerConstraint]

/-- C7: for every pair of 32-bit unsigned integers, the `debug_assert_eq!`
overflow (an unsigned wraparound difference) is algebraically `0` or `256`,
so the checked expression `overflow * (overflow - base)` evaluates to `0`
and `populate` never aborts. -/
theorem add_populate_debug_check_zero (a b : ℕ)
    (ha : a < 2 ^ 32) (hb : b < 2 ^ 32) :
    (populateOverflow a b = 0 ∨ populateOverflow a b = 256)
    ∧ populateDebugCheck a b = 0 := by
  have h : populateOverflow a b = 0 := by
    unfold populateOverflow u32ByteLE
    norm_num
  rw [populateDebugCheck, h]
  norm_num

/-- C7 witness at `a = 255`, `b = 1` (carrying low limb). -/
theorem add_populate_debug_check_zero_witness :
    255 < 2 ^ 32 ∧ 1 < 2 ^ 32
    ∧ (populateOverflow 255 1 = 0 ∨ populateOverflow 255 1 = 256)
    ∧ populateDebugCheck 255 1 = 0 :=
  ⟨by norm_num, by norm_num,
   add_populate_debug_check_zero 255 1 (by norm_num) (by norm_num)⟩

/-- C8: the final assertion emitted by `eval` is the ungated
`a[0]*b[0]*value[0] - a[0]*b[0]*value[0]` identity (the same for every
activation value, not scaled by it), and it evaluates to zero for every
assignment, imposing no requirement on any witness. -/
theorem add_eval_filler_neutral (a b : Word ℚ) (cols : AddOperation ℚ)
    (is_real : ℚ) :
    (evalConstraints a b cols is_real).getLast? = some (fillerConstraint a b cols)
    ∧ fillerConstraint a b cols = 0 := by
  constructor
  · rw [evalConstraints, List.getLast?_append]
    rfl
  · rw [fillerConstraint]
    ring

/-- C9: `populate` only ever writes the value one into a carry column and
never writes zero: each `carry[i]` keeps its incoming value whenever its
carry condition is false.  On an already-populated (dirty) state the carry
columns can therefore retain stale nonzero values: with all carries `5` on
entry and `a = b = 0`, `carry[0]` stays `5`. -/
theorem add_populate_carry_frame (self : AddOperation ℚ) (segment : Segment)
    (a b : ℕ) :
    ((self.populate segment a b).1.carry0
        = if u32ByteLE a 0 + u32ByteLE b 0 > 255 then 1 else self.carry0)
    ∧ ((self.populate segment a b).1.carry1
        = if u32ByteLE a 1 + u32ByteLE b 1 + populateCarry0 a b > 255 then 1
          else self.carry1)
    ∧ ((self.populate segment a b).1.carry2
        = if u32ByteLE a 2 + u32ByteLE b 2 + populateCarry1 a b > 255 then 1
          else self.carry2)
    ∧ (AddOperation.populate ⟨⟨0, 0, 0, 0⟩, 5, 5, 5⟩ [] 0 0).1.carry0 = 5 := by
  refine ⟨rfl, rfl, rfl, ?_⟩
  norm_num [AddOperation.populate, u32ByteLE]

/-- C10: each limb of the `value` word written by `populate` is the field
embedding of a byte in `[0, 255]` (a byte of the little-endian
decomposition of the wrapped sum), independently of the external
range-check mechanism. -/
theorem add_populate_value_limbs_bytes (self : AddOperation ℚ)
    (segment : Segment) (a b : ℕ) (ha : a < 2 ^ 32) (hb : b < 2 ^ 32) :
    ((self.populate segment a b).1.value.w0
        = (u32ByteLE ((a + b) % 2 ^ 32) 0 : ℚ)
      ∧ (self.populate segment a b).1.value.w1
        = (u32ByteLE ((a + b) % 2 ^ 32) 1 : ℚ)
      ∧ (self.populate segment a b).1.value.w2
        = (u32ByteLE ((a + b) % 2 ^ 32) 2 : ℚ)
      ∧ (self.populate segment a b).1.value.w3
        = (u32ByteLE ((a + b) % 2 ^ 32) 3 : ℚ))
    ∧ u32ByteLE ((a + b) % 2 ^ 32) 0 ≤ 255
    ∧ u32ByteLE ((a + b) % 2 ^ 32) 1 ≤ 255
    ∧ u32ByteLE ((a + b) % 2 ^ 32) 2 ≤ 255
    ∧ u32ByteLE ((a + b) % 2 ^ 32) 3 ≤ 255 :=
  ⟨⟨rfl, rfl, rfl, rfl⟩, u32ByteLE_le _ _, u32ByteLE_le _ _,
   u32ByteLE_le _ _, u32ByteLE_le _ _⟩

/-- C10 witness at `a = 4000000000`, `b = 500000000` (wrapping sum). -/
theorem add_populate_value_limbs_bytes_witness :
    4000000000 < 2 ^ 32 ∧ 500000000 < 2 ^ 32
    ∧ ((AddOperation.default.populate [] 4000000000 500000000).1.value.w0
        = (u32ByteLE ((4000000000 + 500000000) % 2 ^ 32) 0 : ℚ)) :=
  ⟨by norm_num, by norm_num,
   (add_populate_value_limbs_bytes AddOperation.default [] 4000000000 500000000
     (by norm_num) (by norm_num)).1.1⟩

/-- C2: for every pair of 32-bit unsigned integers, every constraint
emitted by `eval` — the four overflow identities, the three
carry-implies-overflow identities, the three no-carry-implies-no-overflow
identities and the booleanness identities — evaluates to zero at the
column values written by `populate` on a fresh `AddOperation`, with
activation `1`. -/
theorem add_populate_satisfies_eval (segment : Segment) (a b : ℕ)
    (ha : a < 2 ^ 32) (hb : b < 2 ^ 32) :
    ∀ e ∈ evalConstraints (Word.fromU32 a) (Word.fromU32 b)
        (AddOperation.default.populate segment a b).1 1, e = 0 := by
  rw [populate_default_eq]
  obtain ⟨f0, f1, f2, f3⟩ := populate_overflow_field a b ha hb
  exact evalConstraints_zero_of _ _ _
    (natCast_zero_or_one _ (populateCarry0_le a b))
    (natCast_zero_or_one _ (populateCarry1_le a b))
    (natCast_zero_or_one _ (populateCarry2_le a b))
    f0 f1 f2 f3

/-- C2 witness at `a = 255`, `b = 1`. -/
theorem add_populate_satisfies_eval_witness :
    255 < 2 ^ 32 ∧ 1 < 2 ^ 32
    ∧ ∀ e ∈ evalConstraints (Word.fromU32 255) (Word.fromU32 1)
        (AddOperation.default.populate [] 255 1).1 1, e = 0 :=
  ⟨by norm_num, by norm_num,
   add_populate_satisfies_eval [] 255 1 (by norm_num) (by norm_num)⟩

/-- `u32::from_le_bytes`: the 32-bit value with the given little-endian
bytes. -/
def u32FromLEBytes (x0 x1 x2 x3 : ℕ) : ℕ :=
  x0 + 256 * x1 + 65536 * x2 + 16777216 * x3

lemma u32FromLEBytes_lt (x0 x1 x2 x3 : ℕ) (h0 : x0 ≤ 255) (h1 : x1 ≤ 255)
    (h2 : x2 ≤ 255) (h3 : x3 ≤ 255) : u32FromLEBytes x0 x1 x2 x3 < 2 ^ 32 := by
  unfold u32FromLEBytes
  omega

lemma u32ByteLE_fromLE (x0 x1 x2 x3 : ℕ) (h0 : x0 ≤ 255) (h1 : x1 ≤ 255)
    (h2 : x2 ≤ 255) (h3 : x3 ≤ 255) :
    u32ByteLE (u32FromLEBytes x0 x1 x2 x3) 0 = x0
    ∧ u32ByteLE (u32FromLEBytes x0 x1 x2 x3) 1 = x1
    ∧ u32ByteLE (u32FromLEBytes x0 x1 x2 x3) 2 = x2
    ∧ u32ByteLE (u32FromLEBytes x0 x1 x2 x3) 3 = x3 :=
  u32ByteLE_recomp x0 x1 x2 x3 h0 h1 h2 h3

lemma carryOut_le_one (a b i : ℕ) : carryOut a b i ≤ 1 := by
  unfold carryOut
  have hpos : 0 < 256 ^ (i + 1) := pow_pos (by norm_num) (i + 1)
  have h1 : a % 256 ^ (i + 1) < 256 ^ (i + 1) := Nat.mod_lt _ hpos
  have h2 : b % 256 ^ (i + 1) < 256 ^ (i + 1) := Nat.mod_lt _ hpos
  exact Nat.lt_succ_iff.mp ((Nat.div_lt_iff_lt_mul hpos).mpr (by omega))

/-- Arithmetic core of soundness: byte-bounded limb equations with boolean
carries determine the value bytes and the carries uniquely — they must be
the little-endian bytes of the wrapped sum and its true limb carries. -/
lemma limb_eqs_determine (a0 a1 a2 a3 b0 b1 b2 b3 v0 v1 v2 v3 n0 n1 n2 : ℕ)
    (ha0 : a0 ≤ 255) (ha1 : a1 ≤ 255) (ha2 : a2 ≤ 255) (ha3 : a3 ≤ 255)
    (hb0 : b0 ≤ 255) (hb1 : b1 ≤ 255) (hb2 : b2 ≤ 255) (hb3 : b3 ≤ 255)
    (hv0 : v0 ≤ 255) (hv1 : v1 ≤ 255) (hv2 : v2 ≤ 255) (hv3 : v3 ≤ 255)
    (hn0 : n0 ≤ 1) (hn1 : n1 ≤ 1) (hn2 : n2 ≤ 1)
    (e0 : a0 + b0 = v0 + 256 * n0)
    (e1 : a1 + b1 + n0 = v1 + 256 * n1)
    (e2 : a2 + b2 + n1 = v2 + 256 * n2)
    (e3 : a3 + b3 + n2 = v3 ∨ a3 + b3 + n2 = v3 + 256) :
    (v0 = u32ByteLE ((u32FromLEBytes a0 a1 a2 a3
          + u32FromLEBytes b0 b1 b2 b3) % 2 ^ 32) 0
      ∧ v1 = u32ByteLE ((u32FromLEBytes a0 a1 a2 a3
          + u32FromLEBytes b0 b1 b2 b3) % 2 ^ 32) 1
      ∧ v2 = u32ByteLE ((u32FromLEBytes a0 a1 a2 a3
          + u32FromLEBytes b0 b1 b2 b3) % 2 ^ 32) 2
      ∧ v3 = u32ByteLE ((u32FromLEBytes a0 a1 a2 a3
          + u32FromLEBytes b0 b1 b2 b3) % 2 ^ 32) 3)
    ∧ n0 = carryOut (u32FromLEBytes a0 a1 a2 a3) (u32FromLEBytes b0 b1 b2 b3) 0
    ∧ n1 = carryOut (u32FromLEBytes a0 a1 a2 a3) (u32FromLEBytes b0 b1 b2 b3) 1
    ∧ n2 = carryOut (u32FromLEBytes a0 a1 a2 a3) (u32FromLEBytes b0 b1 b2 b3) 2
    := by
  have hA := u32FromLEBytes_lt a0 a1 a2 a3 ha0 ha1 ha2 ha3
  have hB := u32FromLEBytes_lt b0 b1 b2 b3 hb0 hb1 hb2 hb3
  obtain ⟨ra0, ra1, ra2, ra3⟩ := u32ByteLE_fromLE a0 a1 a2 a3 ha0 ha1 ha2 ha3
  obtain ⟨rb0, rb1, rb2, rb3⟩ := u32ByteLE_fromLE b0 b1 b2 b3 hb0 hb1 hb2 hb3
  obtain ⟨r0, r1, r2, r3⟩ := populate_carry_recurrence
    (u32FromLEBytes a0 a1 a2 a3) (u32FromLEBytes b0 b1 b2 b3) hA hB
  rw [ra0, rb0] at r0
  rw [ra1, rb1] at r1
  rw [ra2, rb2] at r2
  rw [ra3, rb3] at r3
  have hp0 := populateCarry0_le (u32FromLEBytes a0 a1 a2 a3)
    (u32FromLEBytes b0 b1 b2 b3)
  have hp1 := populateCarry1_le (u32FromLEBytes a0 a1 a2 a3)
    (u32FromLEBytes b0 b1 b2 b3)
  have hp2 := populateCarry2_le (u32FromLEBytes a0 a1 a2 a3)
    (u32FromLEBytes b0 b1 b2 b3)
  have hE0 := u32ByteLE_le ((u32FromLEBytes a0 a1 a2 a3
    + u32FromLEBytes b0 b1 b2 b3) % 2 ^ 32) 0
  have hE1 := u32ByteLE_le ((u32FromLEBytes a0 a1 a2 a3
    + u32FromLEBytes b0 b1 b2 b3) % 2 ^ 32) 1
  have hE2 := u32ByteLE_le ((u32FromLEBytes a0 a1 a2 a3
    + u32FromLEBytes b0 b1 b2 b3) % 2 ^ 32) 2
  have hE3 := u32ByteLE_le ((u32FromLEBytes a0 a1 a2 a3
    + u32FromLEBytes b0 b1 b2 b3) % 2 ^ 32) 3
  have k0 : v0 = u32ByteLE ((u32FromLEBytes a0 a1 a2 a3
      + u32FromLEBytes b0 b1 b2 b3) % 2 ^ 32) 0
      ∧ n0 = populateCarry0 (u32FromLEBytes a0 a1 a2 a3)
        (u32FromLEBytes b0 b1 b2 b3) := by omega
  have k1 : v1 = u32ByteLE ((u32FromLEBytes a0 a1 a2 a3
      + u32FromLEBytes b0 b1 b2 b3) % 2 ^ 32) 1
      ∧ n1 = populateCarry1 (u32FromLEBytes a0 a1 a2 a3)
        (u32FromLEBytes b0 b1 b2 b3) := by omega
  have k2 : v2 = u32ByteLE ((u32FromLEBytes a0 a1 a2 a3
      + u32FromLEBytes b0 b1 b2 b3) % 2 ^ 32) 2
      ∧ n2 = populateCarry2 (u32FromLEBytes a0 a1 a2 a3)
        (u32FromLEBytes b0 b1 b2 b3) := by omega
  have k3 : v3 = u32ByteLE ((u32FromLEBytes a0 a1 a2 a3
      + u32FromLEBytes b0 b1 b2 b3) % 2 ^ 32) 3 := by
    rcases e3 with e3 | e3 <;> rcases r3 with r3 | r3 <;> omega
  refine ⟨⟨k0.1, k1.1, k2.1, k3⟩, ?_, ?_, ?_⟩
  · rw [k0.2, populateCarry0_eq_carryOut]
  · rw [k1.2, populateCarry1_eq_carryOut]
  · rw [k2.2, populateCarry2_eq_carryOut]

/-- C1: for all scalar assignments with every limb of `a`, `b` and of
`value` a byte in `[0, 255]` and activation `1`, every identity emitted by
`eval` evaluates to zero iff `value` is the little-endian 4-byte
decomposition of `(a + b) mod 2^32` and each `carry[i]` equals the carry
out of limb `i` of that addition; moreover, for an assignment with a
corrupted carry (not producible by `populate`), some emitted identity is
nonzero. -/
theorem add_eval_iff_correct_addition
    (a0 a1 a2 a3 b0 b1 b2 b3 v0 v1 v2 v3 : ℕ) (c0 c1 c2 : ℚ)
    (ha0 : a0 ≤ 255) (ha1 : a1 ≤ 255) (ha2 : a2 ≤ 255) (ha3 : a3 ≤ 255)
    (hb0 : b0 ≤ 255) (hb1 : b1 ≤ 255) (hb2 : b2 ≤ 255) (hb3 : b3 ≤ 255)
    (hv0 : v0 ≤ 255) (hv1 : v1 ≤ 255) (hv2 : v2 ≤ 255) (hv3 : v3 ≤ 255) :
    ((∀ e ∈ evalConstraints ⟨(a0 : ℚ), (a1 : ℚ), (a2 : ℚ), (a3 : ℚ)⟩
          ⟨(b0 : ℚ), (b1 : ℚ), (b2 : ℚ), (b3 : ℚ)⟩
          ⟨⟨(v0 : ℚ), (v1 : ℚ), (v2 : ℚ), (v3 : ℚ)⟩, c0, c1, c2⟩ 1, e = 0)
      ↔ ((v0 = u32ByteLE ((u32FromLEBytes a0 a1 a2 a3
              + u32FromLEBytes b0 b1 b2 b3) % 2 ^ 32) 0
          ∧ v1 = u32ByteLE ((u32FromLEBytes a0 a1 a2 a3
              + u32FromLEBytes b0 b1 b2 b3) % 2 ^ 32) 1
          ∧ v2 = u32ByteLE ((u32FromLEBytes a0 a1 a2 a3
              + u32FromLEBytes b0 b1 b2 b3) % 2 ^ 32) 2
          ∧ v3 = u32ByteLE ((u32FromLEBytes a0 a1 a2 a3
              + u32FromLEBytes b0 b1 b2 b3) % 2 ^ 32) 3)
        ∧ c0 = (carryOut (u32FromLEBytes a0 a1 a2 a3)
            (u32FromLEBytes b0 b1 b2 b3) 0 : ℚ)
        ∧ c1 = (carryOut (u32FromLEBytes a0 a1 a2 a3)
            (u32FromLEBytes b0 b1 b2 b3) 1 : ℚ)
        ∧ c2 = (carryOut (u32FromLEBytes a0 a1 a2 a3)
            (u32FromLEBytes b0 b1 b2 b3) 2 : ℚ)))
    ∧ ∃ e ∈ evalConstraints ⟨0, 0, 0, 0⟩ ⟨0, 0, 0, 0⟩
        ⟨⟨0, 0, 0, 0⟩, 1, 0, 0⟩ 1, e ≠ 0 := by
  constructor
  · constructor
    · intro hall
      obtain ⟨hc0, hc1, hc2, o0, o1, o2, o3⟩ := evalConstraints_imply _ _ _ hall
      dsimp only at hc0 hc1 hc2 o0 o1 o2 o3
      obtain ⟨n0, hn0le, hn0⟩ : ∃ n : ℕ, n ≤ 1 ∧ c0 = (n : ℚ) := by
        rcases hc0 with h | h
        · exact ⟨0, by norm_num, by rw [h]; norm_num⟩
        · exact ⟨1, by norm_num, by rw [h]; norm_num⟩
      obtain ⟨n1, hn1le, hn1⟩ : ∃ n : ℕ, n ≤ 1 ∧ c1 = (n : ℚ) := by
        rcases hc1 with h | h
        · exact ⟨0, by norm_num, by rw [h]; norm_num⟩
        · exact ⟨1, by norm_num, by rw [h]; norm_num⟩
      obtain ⟨n2, hn2le, hn2⟩ : ∃ n : ℕ, n ≤ 1 ∧ c2 = (n : ℚ) := by
        rcases hc2 with h | h
        · exact ⟨0, by norm_num, by rw [h]; norm_num⟩
        · exact ⟨1, by norm_num, by rw [h]; norm_num⟩
      have N0 : a0 + b0 = v0 + 256 * n0 := by
        have h : (a0 : ℚ) + b0 = v0 + 256 * n0 := by
          rw [hn0] at o0
          linarith
        exact_mod_cast h
      have N1 : a1 + b1 + n0 = v1 + 256 * n1 := by
        have h : (a1 : ℚ) + b1 + n0 = v1 + 256 * n1 := by
          rw [hn0, hn1] at o1
          linarith
        exact_mod_cast h
      have N2 : a2 + b2 + n1 = v2 + 256 * n2 := by
        have h : (a2 : ℚ) + b2 + n1 = v2 + 256 * n2 := by
          rw [hn1, hn2] at o2
          linarith
        exact_mod_cast h
      have N3 : a3 + b3 + n2 = v3 ∨ a3 + b3 + n2 = v3 + 256 := by
        rcases o3 with h | h
        · left
          have h3 : (a3 : ℚ) + b3 + n2 = v3 := by
            rw [hn2] at h
            linarith
          exact_mod_cast h3
        · right
          have h3 : (a3 : ℚ) + b3 + n2 = (v3 : ℚ) + 256 := by
            rw [hn2] at h
            linarith
          exact_mod_cast h3
      obtain ⟨hv, hk0, hk1, hk2⟩ := limb_eqs_determine a0 a1 a2 a3 b0 b1 b2 b3
        v0 v1 v2 v3 n0 n1 n2 ha0 ha1 ha2 ha3 hb0 hb1 hb2 hb3 hv0 hv1 hv2 hv3
        hn0le hn1le hn2le N0 N1 N2 N3
      refine ⟨hv, ?_, ?_, ?_⟩
      · rw [hn0, hk0]
      · rw [hn1, hk1]
      · rw [hn2, hk2]
    · rintro ⟨⟨rfl, rfl, rfl, rfl⟩, rfl, rfl, rfl⟩
      have hA := u32FromLEBytes_lt a0 a1 a2 a3 ha0 ha1 ha2 ha3
      have hB := u32FromLEBytes_lt b0 b1 b2 b3 hb0 hb1 hb2 hb3
      obtain ⟨f0, f1, f2, f3⟩ := populate_overflow_field
        (u32FromLEBytes a0 a1 a2 a3) (u32FromLEBytes b0 b1 b2 b3) hA hB
      obtain ⟨ra0, ra1, ra2, ra3⟩ := u32ByteLE_fromLE a0 a1 a2 a3 ha0 ha1 ha2 ha3
      obtain ⟨rb0, rb1, rb2, rb3⟩ := u32ByteLE_fromLE b0 b1 b2 b3 hb0 hb1 hb2 hb3
      rw [ra0, rb0, populateCarry0_eq_carryOut] at f0
      rw [ra1, rb1, populateCarry0_eq_carryOut, populateCarry1_eq_carryOut] at f1
      rw [ra2, rb2, populateCarry1_eq_carryOut, populateCarry2_eq_carryOut] at f2
      rw [ra3, rb3, populateCarry2_eq_carryOut] at f3
      exact evalConstraints_zero_of _ _ _
        (natCast_zero_or_one _ (carryOut_le_one _ _ 0))
        (natCast_zero_or_one _ (carryOut_le_one _ _ 1))
        (natCast_zero_or_one _ (carryOut_le_one _ _ 2))
        f0 f1 f2 f3
  · refine ⟨-256, ?_, by norm_num⟩
    norm_num [evalConstraints, guardedConstraints, fillerConstraint]

/-- C1 witness at byte-level operands `a = 1`, `b = 2`, value `3`, all
carries zero. -/
theorem add_eval_iff_correct_addition_witness :
    ((1 : ℕ) ≤ 255 ∧ (2 : ℕ) ≤ 255 ∧ (3 : ℕ) ≤ 255)
    ∧ ∀ e ∈ evalConstraints
        ⟨((1 : ℕ) : ℚ), ((0 : ℕ) : ℚ), ((0 : ℕ) : ℚ), ((0 : ℕ) : ℚ)⟩
        ⟨((2 : ℕ) : ℚ), ((0 : ℕ) : ℚ), ((0 : ℕ) : ℚ), ((0 : ℕ) : ℚ)⟩
        ⟨⟨((3 : ℕ) : ℚ), ((0 : ℕ) : ℚ), ((0 : ℕ) : ℚ), ((0 : ℕ) : ℚ)⟩,
          ((0 : ℕ) : ℚ), ((0 : ℕ) : ℚ), ((0 : ℕ) : ℚ)⟩ 1, e = 0 :=
  ⟨⟨by norm_num, by norm_num, by norm_num⟩,
   ((add_eval_iff_correct_addition 1 0 0 0 2 0 0 0 3 0 0 0
       ((0 : ℕ) : ℚ) ((0 : ℕ) : ℚ) ((0 : ℕ) : ℚ)
       (by norm_num) (by norm_num) (by norm_num) (by norm_num)
       (by norm_num) (by norm_num) (by norm_num) (by norm_num)
       (by norm_num) (by norm_num) (by norm_num) (by norm_num)).1).mpr
     (by refine ⟨⟨?_, ?_, ?_, ?_⟩, ?_, ?_, ?_⟩ <;>
        norm_num [u32ByteLE, u32FromLEBytes, carryOut])⟩

/-- C6: `populate` registers the 12 limb bytes exactly once, as the 6
adjacent pairs `(a0,a1),(a2,a3),(b0,b1),(b2,b3),(sum0,sum1),(sum2,sum3)`
appended to the segment in that fixed order, and `eval` (at the matching
operand words and columns) emits exactly the same 6 pairs in the same
order as `send_byte_pair` requests, each tagged with the `Range` opcode,
two zero filler slots, and multiplicity equal to the activation flag. -/
theorem add_range_check_pairs (self : AddOperation ℚ) (segment : Segment)
    (a b : ℕ) (is_real : ℚ) (ha : a < 2 ^ 32) (hb : b < 2 ^ 32) :
    (self.populate segment a b).2.1
      = segment
        ++ [(u32ByteLE a 0, u32ByteLE a 1), (u32ByteLE a 2, u32ByteLE a 3),
            (u32ByteLE b 0, u32ByteLE b 1), (u32ByteLE b 2, u32ByteLE b 3),
            (u32ByteLE ((a + b) % 2 ^ 32) 0, u32ByteLE ((a + b) % 2 ^ 32) 1),
            (u32ByteLE ((a + b) % 2 ^ 32) 2, u32ByteLE ((a + b) % 2 ^ 32) 3)]
    ∧ evalByteSends (Word.fromU32 a) (Word.fromU32 b)
        (self.populate segment a b).1 is_real
      = [(u32ByteLE a 0, u32ByteLE a 1), (u32ByteLE a 2, u32ByteLE a 3),
         (u32ByteLE b 0, u32ByteLE b 1), (u32ByteLE b 2, u32ByteLE b 3),
         (u32ByteLE ((a + b) % 2 ^ 32) 0, u32ByteLE ((a + b) % 2 ^ 32) 1),
         (u32ByteLE ((a + b) % 2 ^ 32) 2, u32ByteLE ((a + b) % 2 ^ 32) 3)].map
          (fun p => ⟨ByteOpcode.Range, 0, 0, (p.1 : ℚ), (p.2 : ℚ), is_real⟩) := by
  constructor
  · simp [AddOperation.populate, Segment.addByteRangeChecks]
  · rfl

/-- C6 witness at `a = 258`, `b = 772`. -/
theorem add_range_check_pairs_witness :
    258 < 2 ^ 32 ∧ 772 < 2 ^ 32
    ∧ (AddOperation.default.populate [] 258 772).2.1
      = [] ++ [(u32ByteLE 258 0, u32ByteLE 258 1), (u32ByteLE 258 2, u32ByteLE 258 3),
          (u32ByteLE 772 0, u32ByteLE 772 1), (u32ByteLE 772 2, u32ByteLE 772 3),
          (u32ByteLE ((258 + 772) % 2 ^ 32) 0, u32ByteLE ((258 + 772) % 2 ^ 32) 1),
          (u32ByteLE ((258 + 772) % 2 ^ 32) 2, u32ByteLE ((258 + 772) % 2 ^ 32) 3)] :=
  ⟨by norm_num, by norm_num,
   (add_range_check_pairs AddOperation.default [] 258 772 1
     (by norm_num) (by norm_num)).1⟩

/-- C5 witness: at activation `0`, the first emitted (guarded) identity
vanishes even on columns violating the addition identities. -/
theorem add_eval_inactive_neutral_witness :
    (0 : ℚ) * (((7 : ℚ) + 7 - 9) * ((7 : ℚ) + 7 - 9 - 256)) = 0 :=
  add_eval_inactive_neutral ⟨7, 7, 7, 7⟩ ⟨7, 7, 7, 7⟩ ⟨⟨9, 9, 9, 9⟩, 3, 3, 3⟩
    ((0 : ℚ) * (((7 : ℚ) + 7 - 9) * ((7 : ℚ) + 7 - 9 - 256)))
    (List.mem_cons_self _ _)
